import Mathlib

/-!
Shallow embedding of the node-manatee client (`manatee.js`) and proofs about
its topology pipeline: the peer-name decoder, the topology reducer, the
debounced emission logic of the shard client, the session lifecycle, the
`watchNode` data chain, and the primary-resolver state machine.

JavaScript strings are modelled as lists of characters so that every
definition is executable and decidable on concrete inputs.
-/

/-- A JavaScript string, modelled as its list of characters. -/
abbrev JStr := List Char

/-- Injects a Lean string literal into the model. -/
def jstr (s : String) : JStr := s.toList

/-- JS `s.split(sep)` for a single-character separator: the list of groups
between occurrences of `sep`.  As in JS, `"".split(sep) = [""]` and
`"-".split("-") = ["", ""]`. -/
def jsSplit (sep : Char) : JStr → List JStr
  | [] => [[]]
  | c :: rest =>
    match jsSplit sep rest with
    | [] => [[]]
    | g :: gs => if c = sep then [] :: g :: gs else (c :: g) :: gs

/-- JS `s.substring(s.lastIndexOf(sep) + 1)`: the suffix after the last
occurrence of `sep`, or the whole string when `sep` does not occur
(`lastIndexOf` returns `-1` and `substring(0)` is the whole string). -/
def tailAfterLast (sep : Char) (s : JStr) : JStr :=
  (s.reverse.takeWhile (fun c => c ≠ sep)).reverse

/-- Numeric value of a list of decimal digit characters. -/
def digitsToNat (ds : JStr) : Nat :=
  ds.foldl (fun a c => 10 * a + (c.toNat - '0'.toNat)) 0

/-- JS `parseInt(s, 10)` restricted to sign-free, whitespace-free inputs
(the only inputs fed to it here: the tail of a node name after the last
`'-'`, which cannot itself contain a sign).  The longest prefix of decimal
digits is parsed; no digits means `NaN`, modelled as `none`. -/
def parseIntJS (s : JStr) : Option Nat :=
  match s.takeWhile Char.isDigit with
  | [] => none
  | ds => some (digitsToNat ds)

/-- The sort key of `childrenToUrls`'s comparator:
`parseInt(a.substring(a.lastIndexOf('-') + 1), 10)`. -/
def seqNum (s : JStr) : Option Nat := parseIntJS (tailAfterLast '-' s)

/-- Total version of the key.  A non-numeric tail yields `NaN` in JS, for
which the comparator's result is unspecified (the source documents such
names as undefined input); it is modelled as key 0. -/
def seqKey (s : JStr) : Nat := (seqNum s).getD 0

/-- The ascending order induced by the comparator `seqA - seqB`. -/
def seqLe (a b : JStr) : Prop := seqKey a ≤ seqKey b

instance : DecidableRel seqLe := fun _ _ => Nat.decLe _ _

instance : IsTotal JStr seqLe := ⟨fun a b => Nat.le_total (seqKey a) (seqKey b)⟩

instance : IsTrans JStr seqLe := ⟨fun _ _ _ => Nat.le_trans⟩

/-- `transformPgUrl(zkNode)`:
`encodedString = zkNode.split('-')[0]`, `data = encodedString.split(':')`;
one colon-field gives `tcp://data[0]`, two or more give
`tcp://data[0]:data[1]`. -/
def transformPgUrl (zkNode : JStr) : JStr :=
  let encodedString := (jsSplit '-' zkNode).getD 0 []
  let data := jsSplit ':' encodedString
  if data.length = 1 then
    jstr "tcp://" ++ data.getD 0 []
  else
    jstr "tcp://" ++ data.getD 0 [] ++ [':'] ++ data.getD 1 []

/-- `childrenToUrls(children)`: `(children || []).sort(compare).map(transformPgUrl)`.
`Array.prototype.sort` with the consistent comparator `seqA - seqB` yields the
stable ascending order by the sequence key, modelled by stable insertion sort. -/
def childrenToUrls (children : Option (List JStr)) : List JStr :=
  ((children.getD []).insertionSort seqLe).map transformPgUrl

/-- One peer entry of the cluster-state document (only `pgUrl` is read). -/
structure PeerInfo where
  pgUrl : JStr
deriving DecidableEq, Repr

/-- The recognized fields of the cluster-state JSON document. -/
structure ClusterState where
  primary : Option PeerInfo
  sync : Option PeerInfo
  async : Option (List PeerInfo)
deriving DecidableEq, Repr

/-- `clusterStateToUrls(cs)`: push `primary.pgUrl` if present, then
`sync.pgUrl` if present, then each `async[i].pgUrl` in declared order. -/
def clusterStateToUrls (cs : ClusterState) : List JStr :=
  let urls : List JStr := []
  let urls := match cs.primary with
    | some p => urls ++ [p.pgUrl]
    | none => urls
  let urls := match cs.sync with
    | some p => urls ++ [p.pgUrl]
    | none => urls
  let urls := match cs.async with
    | some l => urls ++ l.map (fun a => a.pgUrl)
    | none => urls
  urls

/-- The topology reducer realized by the dispatch in `_handleClusterState`
and `_handleActive`: a present cluster state wins; otherwise the actives are
decoded; with neither source the published topology is the initial `[]`. -/
def reduceTopology (clusterState : Option ClusterState)
    (actives : Option (List JStr)) : List JStr :=
  match clusterState with
  | some cs => clusterStateToUrls cs
  | none =>
    match actives with
    | some c => childrenToUrls (some c)
    | none => []

/-- Node data as delivered to `_handleClusterState`: bytes that either
JSON-parse to a cluster-state document or fail to parse.  The byte-level
JSON codec is outside the model; only the success/failure of
`JSON.parse(res.data.toString('utf8'))` and the resulting document are
observable in the client. -/
inductive NodeData where
  | valid (cs : ClusterState)
  | invalid
deriving DecidableEq, Repr

/-- `JSON.parse` of the UTF-8 decoded node data; `none` means it threw. -/
def parseClusterState : NodeData → Option ClusterState
  | .valid cs => some cs
  | .invalid => none

/-- The view structure produced by `_watchNode`'s `getRes()`:
`{data, version, children}`, all fields nullable. -/
structure NodeView where
  data : Option NodeData
  version : Option Nat
  children : Option (List JStr)
deriving DecidableEq, Repr

/-- The mutable fields of a `Manatee` client instance that the topology
pipeline reads and writes. -/
structure ClientState where
  inited : Bool
  clusterState : Option ClusterState
  actives : Option (List JStr)
  urls : List JStr
deriving DecidableEq, Repr

/-- The client state right after the constructor ran. -/
def initialClient : ClientState :=
  { inited := false, clusterState := none, actives := none, urls := [] }

/-- Events the client emits on its event-emitter interface. -/
inductive ClientEvent where
  | ready
  | topology (urls : List JStr)
  | error
deriving DecidableEq, Repr

/-- Is this a `topology` emission? -/
def isTopology : ClientEvent → Bool
  | .topology _ => true
  | _ => false

/-- The payloads of the `topology` emissions of an event list, in order. -/
def topoPayloads (evs : List ClientEvent) : List (List JStr) :=
  evs.filterMap (fun e => match e with
    | .topology u => some u
    | _ => none)

/-- The debounce check of `_handleTopologyChange`:
`equal = urls.length === self._urls.length` and then
`self._urls.forEach(function (u, i) eq-and u === urls[i])`.
When `i` is out of range, `urls[i]` is `undefined` (modelled by `none`) and
the strict comparison with a string is false. -/
def elementwiseEqual (olds news : List JStr) : Bool :=
  (List.range olds.length).foldl
    (fun equal i => equal && (news.get? i == olds.get? i))
    (news.length == olds.length)

/-- `_handleTopologyChange(urls)`: debounce, then store and (when inited)
emit.  `urls = urls || []`. -/
def handleTopologyChange (urlsIn : Option (List JStr)) (s : ClientState) :
    ClientState × List ClientEvent :=
  let urls := urlsIn.getD []
  if elementwiseEqual s.urls urls then
    (s, [])
  else
    ({ s with urls := urls },
     if s.inited then [ClientEvent.topology urls] else [])

/-- `_handleClusterState(res)`. -/
def handleClusterState (res : Option NodeView) (s : ClientState) :
    ClientState × List ClientEvent :=
  match res.bind NodeView.data with
  | none =>
    -- `!res || !res.data`: the state node does not exist (or has no data)
    if !s.inited then
      (s, [])
    else
      -- `self._clusterState = null`, then `if (self._actives)` recompute
      match s.actives with
      | some acts =>
        handleTopologyChange (some (childrenToUrls (some acts)))
          { s with clusterState := none }
      | none => ({ s with clusterState := none }, [])
  | some d =>
    match parseClusterState d with
    | none => (s, [ClientEvent.error])
    | some cs =>
      handleTopologyChange (some (clusterStateToUrls cs))
        { s with clusterState := some cs }

/-- `_handleActive(res)`. -/
def handleActive (res : Option NodeView) (s : ClientState) :
    ClientState × List ClientEvent :=
  match res.bind NodeView.children with
  | none => ({ s with actives := none }, [])
  | some ch =>
    -- `self._actives = res.children`, then cluster state wins if present
    match s.clusterState with
    | some _ => ({ s with actives := some ch }, [])
    | none =>
      handleTopologyChange (some (childrenToUrls (some ch)))
        { s with actives := some ch }

/-- Run a sequence of `_handleTopologyChange` calls, collecting the emitted
events in order. -/
def runTopoChanges (s : ClientState) :
    List (Option (List JStr)) → ClientState × List ClientEvent
  | [] => (s, [])
  | u :: us =>
    let p := handleTopologyChange u s
    let q := runTopoChanges p.1 us
    (q.1, p.2 ++ q.2)

/-- External events driving one client lifetime: ZK session callbacks and
`_watchNode` deliveries into the two handlers. -/
inductive LEvent where
  | connectedOk
  | connectedErr
  | expired
  | zkError
  | clusterView (v : Option NodeView)
  | activeView (v : Option NodeView)
deriving DecidableEq, Repr

/-- Client state plus the `once`-latch of `emitReady` (created in `_init`,
outside `setupZkClient`, hence shared across session rebuilds). -/
structure LifeState where
  client : ClientState
  readyRun : Bool
deriving DecidableEq, Repr

/-- The lifecycle state right after construction. -/
def initialLife : LifeState := { client := initialClient, readyRun := false }

/-- One step of the client lifecycle.
`connectedOk` models `setWatchesOnce` completing without error, upon which
`emitReady()` runs: its body latches `inited := true` and queues
`emit('ready')` then `emit('topology', urls)` as two `process.nextTick`
posts; node drains the tick queue before any further ZK callback runs, so
the two emissions are modelled as immediate and in that order.  `emitReady`
is `once`-guarded for the whole lifetime, modelled by `readyRun`.
`connectedErr` (watch setup failed), `expired` and `zkError` all run the
`once`-guarded `resetZkClient`, which closes the handle and re-enters
`setupZkClient`; nothing is emitted and no client field changes.
`clusterView`/`activeView` deliver a node view into the handlers. -/
def lifeStep (s : LifeState) : LEvent → LifeState × List ClientEvent
  | .connectedOk =>
    if s.readyRun then
      (s, [])
    else
      ({ client := { s.client with inited := true }, readyRun := true },
       [ClientEvent.ready, ClientEvent.topology s.client.urls])
  | .connectedErr => (s, [])
  | .expired => (s, [])
  | .zkError => (s, [])
  | .clusterView v =>
    ({ s with client := (handleClusterState v s.client).1 },
     (handleClusterState v s.client).2)
  | .activeView v =>
    ({ s with client := (handleActive v s.client).1 },
     (handleActive v s.client).2)

/-- Run a lifetime over a trace of events, collecting emissions in order. -/
def runLife (s : LifeState) : List LEvent → LifeState × List ClientEvent
  | [] => (s, [])
  | e :: es =>
    let p := lifeStep s e
    let q := runLife p.1 es
    (q.1, p.2 ++ q.2)

/-- The base64 alphabet used by `Buffer.prototype.toString('base64')`. -/
def base64Alphabet : JStr :=
  jstr "ABCDEFGHIJKLMNOPQRSTUVWXYZabcdefghijklmnopqrstuvwxyz0123456789+/"

/-- The alphabet character at a 6-bit index. -/
def base64Char (n : Nat) : Char := base64Alphabet.getD n 'A'

/-- Base64 of a byte list (bytes as naturals, reduced mod 256) whose length
is a multiple of three; `crypto.randomBytes(9).toString('base64')` always
hits this padding-free case (9 = 3 * 3 bytes give 12 characters). -/
def base64Encode : List Nat → JStr
  | b0 :: b1 :: b2 :: rest =>
    let n := (b0 % 256) * 65536 + (b1 % 256) * 256 + b2 % 256
    base64Char (n / 262144 % 64) :: base64Char (n / 4096 % 64) ::
      base64Char (n / 64 % 64) :: base64Char (n % 64) :: base64Encode rest
  | _ => []

/-- A `{name, address, port, key}` record as assembled by `state_running`'s
topology handler plus `diffPrimaryAndEmit`. -/
structure PrimaryRecord where
  name : JStr
  address : JStr
  port : Nat
  key : JStr
deriving DecidableEq, Repr

/-- The candidate `np = {name: 'primary', address, port}` before a key is
assigned. -/
structure PrimaryCandidate where
  name : JStr
  address : JStr
  port : Nat
deriving DecidableEq, Repr

/-- The resolver fields read and written by `diffPrimaryAndEmit` and the
`state_failed` entry action. -/
structure ResolverState where
  mpr_previous : Option PrimaryRecord
  mpr_primary : Option PrimaryRecord
deriving DecidableEq, Repr

/-- Events the resolver emits. -/
inductive REvent where
  | added (key : JStr) (record : PrimaryRecord)
  | removed (key : JStr)
deriving DecidableEq, Repr

/-- The name/address/port comparison guarding `diffPrimaryAndEmit`. -/
def samePrimary (o : PrimaryRecord) (np : PrimaryCandidate) : Bool :=
  o.name == np.name && o.address == np.address && o.port == np.port

/-- `diffPrimaryAndEmit(np)`.  The nine random bytes drawn by
`crypto.randomBytes(9)` are an input of the model (the RNG oracle);
`np.key = bytes.toString('base64')`. -/
def diffPrimaryAndEmit (randomBytes : List Nat) (np : PrimaryCandidate)
    (s : ResolverState) : ResolverState × List REvent :=
  if (match s.mpr_primary with
      | some o => samePrimary o np
      | none => false) then
    (s, [])
  else
    let key := base64Encode randomBytes
    let newRecord : PrimaryRecord := ⟨np.name, np.address, np.port, key⟩
    ({ mpr_previous := s.mpr_primary, mpr_primary := some newRecord },
     [REvent.added key newRecord] ++
       (match s.mpr_primary with
        | some o => [REvent.removed o.key]
        | none => []))

/-- The entry action of `state_failed`: remember the primary as previous and
clear it; nothing is emitted. -/
def state_failed_entry (s : ResolverState) : ResolverState × List REvent :=
  ({ mpr_previous := s.mpr_primary, mpr_primary := none }, [])

/-- `count()`. -/
def resolverCount (s : ResolverState) : Nat :=
  match s.mpr_primary with
  | none => 0
  | some _ => 1

/-- `list()`: the `{key: record}` backends mapping, as an association list. -/
def resolverList (s : ResolverState) : List (JStr × PrimaryRecord) :=
  match s.mpr_primary with
  | none => []
  | some p => [(p.key, p)]

/-- One result of a `zk.getData` read inside `_watchNode`. -/
inductive GDResp where
  | ok (version : Nat)
  | noNode
  | err
deriving DecidableEq, Repr

/-- Whether the initial `getData` chain of `_watchNode` installs the data
watch (calls `registerDataWatch`) when its read finally resolves.  The flag
is `getData`'s `regWatch` parameter; `responses` scripts the successive
`zk.getData` results.  On a transient (non-NO_NODE) error the source runs
`setTimeout(getData, 5000)`: `getData` is re-entered with no argument, so on
the retry `regWatch` is `undefined`, i.e. falsy.  When the read resolves,
`done()` runs `registerDataWatch()` iff `regWatch` is truthy (in the
node-exists case after `registerChildrenWatch(done)` completes, which is
part of the resolving scenario modelled here).  `none` means the read never
resolved within the script. -/
def getDataInstallsWatch : Bool → List GDResp → Option Bool
  | _, [] => none
  | regWatch, r :: rest =>
    match r with
    | .err => getDataInstallsWatch false rest
    | .noNode => some regWatch
    | .ok _ => some regWatch

-- ======================================================================
-- Theorems
-- ======================================================================

/-- `jsSplit` never returns an empty list of groups. -/
theorem jsSplit_ne_nil (sep : Char) (s : JStr) : jsSplit sep s ≠ [] := by
  cases s with
  | nil => simp [jsSplit]
  | cons c rest =>
    simp only [jsSplit]
    cases h : jsSplit sep rest with
    | nil => simp
    | cons g gs =>
      by_cases hc : c = sep <;> simp [hc]

/-- Folding a conjunction over a list equals the initial flag and-ed with
`all`. -/
theorem foldl_and_eq {α : Type} (f : α → Bool) :
    ∀ (l : List α) (b : Bool),
      l.foldl (fun acc x => acc && f x) b = (b && l.all f)
  | [], b => by simp
  | x :: l, b => by
    rw [List.foldl_cons, foldl_and_eq f l (b && f x), List.all_cons]
    rw [Bool.and_assoc]

/-- The debounce check succeeds exactly on equal url lists. -/
theorem elementwiseEqual_iff (olds news : List JStr) :
    elementwiseEqual olds news = true ↔ olds = news := by
  unfold elementwiseEqual
  rw [foldl_and_eq]
  constructor
  · intro h
    rw [Bool.and_eq_true, List.all_eq_true] at h
    obtain ⟨hlen, hall⟩ := h
    have hlen' : news.length = olds.length := by simpa using hlen
    apply List.ext_get?
    intro n
    by_cases hn : n < olds.length
    · have h2 : news.get? n = olds.get? n := by
        simpa using hall n (List.mem_range.mpr hn)
      exact h2.symm
    · rw [List.get?_eq_none.mpr (by omega), List.get?_eq_none.mpr (by omega)]
  · rintro rfl
    simp

/-- When the reduced list equals the stored one, `_handleTopologyChange` is a
no-op: no emission, state untouched. -/
theorem handleTopologyChange_of_eq (urlsIn : Option (List JStr))
    (s : ClientState) (h : urlsIn.getD [] = s.urls) :
    handleTopologyChange urlsIn s = (s, []) := by
  unfold handleTopologyChange
  rw [if_pos ((elementwiseEqual_iff s.urls (urlsIn.getD [])).mpr h.symm)]

/-- When the reduced list differs from the stored one,
`_handleTopologyChange` stores it and emits exactly when inited. -/
theorem handleTopologyChange_of_ne (urlsIn : Option (List JStr))
    (s : ClientState) (h : urlsIn.getD [] ≠ s.urls) :
    handleTopologyChange urlsIn s =
      ({ s with urls := urlsIn.getD [] },
       if s.inited then [ClientEvent.topology (urlsIn.getD [])] else []) := by
  unfold handleTopologyChange
  rw [if_neg (fun hc => h ((elementwiseEqual_iff s.urls (urlsIn.getD [])).mp hc).symm)]

/-- `_handleTopologyChange` emits nothing when the client is not inited. -/
theorem handleTopologyChange_not_inited (u : Option (List JStr))
    (s : ClientState) (h : s.inited = false) :
    (handleTopologyChange u s).2 = [] := by
  simp only [handleTopologyChange]
  split
  · rfl
  · simp [h]

/-- `_handleTopologyChange` never emits `ready`. -/
theorem handleTopologyChange_no_ready (u : Option (List JStr)) (s : ClientState) :
    ClientEvent.ready ∉ (handleTopologyChange u s).2 := by
  simp only [handleTopologyChange]
  split
  · simp
  · split <;> simp

/-- `_handleTopologyChange` never emits `error`. -/
theorem handleTopologyChange_no_error (u : Option (List JStr)) (s : ClientState) :
    ClientEvent.error ∉ (handleTopologyChange u s).2 := by
  simp only [handleTopologyChange]
  split
  · simp
  · split <;> simp

/-- `_handleTopologyChange` never touches `inited`. -/
theorem handleTopologyChange_inited (u : Option (List JStr)) (s : ClientState) :
    (handleTopologyChange u s).1.inited = s.inited := by
  simp only [handleTopologyChange]
  split <;> rfl

/-- `_handleClusterState` never emits `ready`. -/
theorem handleClusterState_no_ready (v : Option NodeView) (s : ClientState) :
    ClientEvent.ready ∉ (handleClusterState v s).2 := by
  unfold handleClusterState
  split
  · split
    · simp
    · split
      · exact handleTopologyChange_no_ready _ _
      · simp
  · split
    · simp
    · exact handleTopologyChange_no_ready _ _

/-- When the client is not inited, `_handleClusterState` emits no
`topology` event (only possibly `error`). -/
theorem handleClusterState_no_topo_of_not_inited (v : Option NodeView)
    (s : ClientState) (h : s.inited = false) :
    ∀ e ∈ (handleClusterState v s).2, isTopology e = false := by
  unfold handleClusterState
  split
  · split
    · simp
    · split
      · rw [handleTopologyChange_not_inited _ _ (by simpa using h)]
        simp
      · simp
  · split
    · simp [isTopology]
    · rw [handleTopologyChange_not_inited _ _ (by simpa using h)]
      simp

/-- `_handleClusterState` never touches `inited`. -/
theorem handleClusterState_inited (v : Option NodeView) (s : ClientState) :
    (handleClusterState v s).1.inited = s.inited := by
  unfold handleClusterState
  split
  · split
    · rfl
    · split
      · exact handleTopologyChange_inited _ _
      · rfl
  · split
    · rfl
    · exact handleTopologyChange_inited _ _

/-- `_handleActive` never emits `ready`. -/
theorem handleActive_no_ready (v : Option NodeView) (s : ClientState) :
    ClientEvent.ready ∉ (handleActive v s).2 := by
  unfold handleActive
  split
  · simp
  · split
    · simp
    · exact handleTopologyChange_no_ready _ _

/-- `_handleActive` never emits `error`. -/
theorem handleActive_no_error (v : Option NodeView) (s : ClientState) :
    ClientEvent.error ∉ (handleActive v s).2 := by
  unfold handleActive
  split
  · simp
  · split
    · simp
    · exact handleTopologyChange_no_error _ _

/-- When the client is not inited, `_handleActive` emits nothing. -/
theorem handleActive_of_not_inited (v : Option NodeView)
    (s : ClientState) (h : s.inited = false) :
    (handleActive v s).2 = [] := by
  unfold handleActive
  split
  · rfl
  · split
    · rfl
    · exact handleTopologyChange_not_inited _ _ (by simpa using h)

/-- `_handleActive` never touches `inited`. -/
theorem handleActive_inited (v : Option NodeView) (s : ClientState) :
    (handleActive v s).1.inited = s.inited := by
  unfold handleActive
  split
  · rfl
  · split
    · rfl
    · exact handleTopologyChange_inited _ _

/-- The first group of a JS split is the longest separator-free prefix. -/
theorem jsSplit_head (sep : Char) (s : JStr) :
    (jsSplit sep s).getD 0 [] = s.takeWhile (fun c => c ≠ sep) := by
  induction s with
  | nil => rfl
  | cons c rest ih =>
    simp only [jsSplit]
    cases h : jsSplit sep rest with
    | nil => exact absurd h (jsSplit_ne_nil sep rest)
    | cons g gs =>
      rw [h] at ih
      by_cases hc : c = sep
      · simp [hc, List.takeWhile_cons]
      · simpa [hc, List.takeWhile_cons] using ih

/-- Splitting a string that does not contain the separator yields the whole
string as the single group. -/
theorem jsSplit_no_sep (sep : Char) (s : JStr) (h : sep ∉ s) :
    jsSplit sep s = [s] := by
  induction s with
  | nil => rfl
  | cons c rest ih =>
    simp only [List.mem_cons, not_or] at h
    have hc : ¬ c = sep := fun hcs => h.1 hcs.symm
    simp only [jsSplit, ih h.2, if_neg hc]

/-- `takeWhile` runs through a satisfying prefix and stops at a failing
element. -/
theorem takeWhile_append_of {α : Type} (p : α → Bool) (l : List α) (x : α)
    (r : List α) (hl : ∀ a ∈ l, p a = true) (hx : p x = false) :
    (l ++ x :: r).takeWhile p = l := by
  induction l with
  | nil => simp [List.takeWhile_cons, hx]
  | cons a l ih =>
    have ha := hl a (by simp)
    simp only [List.cons_append, List.takeWhile_cons, ha, if_true]
    rw [ih (fun b hb => hl b (by simp [hb]))]

/-- `_handleTopologyChange` never touches `clusterState`. -/
theorem handleTopologyChange_clusterState (u : Option (List JStr))
    (s : ClientState) :
    (handleTopologyChange u s).1.clusterState = s.clusterState := by
  simp only [handleTopologyChange]
  split <;> rfl

/-- C1: the reducer obeys the cluster-state-wins rule.  With a non-null
cluster state it returns `[primary.pgUrl?, sync.pgUrl?, async[0].pgUrl, ...]`,
omitting absent fields and preserving the declared async order; with a null
cluster state and non-null children it returns the decoded children in
ascending sequence-number order (any two names whose tails parse appear in
ascending order of those numbers); with both sources null it returns `[]`. -/
theorem C1_reducer_cluster_state_wins (cs : ClusterState)
    (ch : Option (List JStr)) (c : List JStr) :
    (reduceTopology (some cs) ch =
      (match cs.primary with | some p => [p.pgUrl] | none => []) ++
      (match cs.sync with | some p => [p.pgUrl] | none => []) ++
      (cs.async.getD []).map PeerInfo.pgUrl) ∧
    (∃ c' : List JStr, c'.Perm c ∧
      c'.Pairwise (fun a b => ∀ na nb, seqNum a = some na →
        seqNum b = some nb → na ≤ nb) ∧
      reduceTopology none (some c) = c'.map transformPgUrl) ∧
    reduceTopology none none = [] := by
  refine ⟨?_, ⟨c.insertionSort seqLe, List.perm_insertionSort seqLe c, ?_, rfl⟩,
    rfl⟩
  · cases hp : cs.primary <;> cases hs : cs.sync <;> cases ha : cs.async <;>
      simp [reduceTopology, clusterStateToUrls, hp, hs, ha]
  · have hsorted := List.sorted_insertionSort seqLe c
    refine List.Pairwise.imp ?_ hsorted
    intro a b hab na nb hna hnb
    simpa [seqLe, seqKey, hna, hnb] using hab

/-- C2 counterexample: the decoder splits on the FIRST dash of the node
name, not the last.  For the name `a-b-0000000001` (host `a-b`, sequence
`0000000001`) the claim demands `tcp://a-b`, but the code returns
`tcp://a`. -/
theorem C2_counterexample :
    transformPgUrl (jstr "a-b-0000000001") = jstr "tcp://a" ∧
    transformPgUrl (jstr "a-b-0000000001") ≠ jstr "tcp://a-b" := by
  decide

/-- C2 (amended): `transformPgUrl` decodes exactly the portion of the name
before the FIRST dash (the comparator still uses the suffix after the last
dash as sequence number): splitting that prefix on `:`, it returns
`tcp://f0` for one field and `tcp://f0:f1` for two or more, ignoring extra
colon-fields.  For a name `host-seq` whose host contains no dash (and no
colon), the result is `tcp://host`. -/
theorem C2_transformPgUrl_amended :
    (∀ name : JStr,
      transformPgUrl name =
        (if (jsSplit ':' (name.takeWhile (fun ch => ch ≠ '-'))).length = 1 then
          jstr "tcp://" ++
            (jsSplit ':' (name.takeWhile (fun ch => ch ≠ '-'))).getD 0 []
        else
          jstr "tcp://" ++
            (jsSplit ':' (name.takeWhile (fun ch => ch ≠ '-'))).getD 0 [] ++
            [':'] ++
            (jsSplit ':' (name.takeWhile (fun ch => ch ≠ '-'))).getD 1 [])) ∧
    (∀ host seq : JStr, '-' ∉ host → ':' ∉ host →
      transformPgUrl (host ++ '-' :: seq) = jstr "tcp://" ++ host) := by
  constructor
  · intro name
    simp only [transformPgUrl, jsSplit_head]
  · intro host seq h1 h2
    have hhead : (jsSplit '-' (host ++ '-' :: seq)).getD 0 [] = host := by
      rw [jsSplit_head]
      apply takeWhile_append_of
      · intro a ha
        simp only [ne_eq, decide_eq_true_eq]
        exact fun hq => h1 (hq ▸ ha)
      · simp
    simp only [transformPgUrl]
    rw [hhead, jsSplit_no_sep ':' host h2]
    simp

/-- C2 witness: a dash-free, colon-free host decodes to `tcp://host`. -/
theorem C2_witness :
    ('-' ∉ jstr "10.77.77.9" ∧ ':' ∉ jstr "10.77.77.9") ∧
    transformPgUrl (jstr "10.77.77.9" ++ '-' :: jstr "0000000057") =
      jstr "tcp://" ++ jstr "10.77.77.9" :=
  ⟨by decide, C2_transformPgUrl_amended.2 (jstr "10.77.77.9")
    (jstr "0000000057") (by decide) (by decide)⟩

/-- With absent node data, `_handleClusterState` can emit only `topology`,
never `error`. -/
theorem handleClusterState_data_none_error_free (v : Option NodeView)
    (s : ClientState) (hd : v.bind NodeView.data = none) :
    ClientEvent.error ∉ (handleClusterState v s).2 := by
  simp only [handleClusterState, hd]
  split
  · simp
  · split
    · exact handleTopologyChange_no_error _ _
    · simp

/-- Branch equation: present node data that fails to parse. -/
theorem handleClusterState_eq_invalid (v : Option NodeView) (s : ClientState)
    (d : NodeData) (hd : v.bind NodeView.data = some d)
    (hp : parseClusterState d = none) :
    handleClusterState v s = (s, [ClientEvent.error]) := by
  simp only [handleClusterState, hd, hp]

/-- Branch equation: present node data that parses. -/
theorem handleClusterState_eq_valid (v : Option NodeView) (s : ClientState)
    (d : NodeData) (cs : ClusterState) (hd : v.bind NodeView.data = some d)
    (hp : parseClusterState d = some cs) :
    handleClusterState v s =
      handleTopologyChange (some (clusterStateToUrls cs))
        { s with clusterState := some cs } := by
  simp only [handleClusterState, hd, hp]

/-- C3 counterexample: an inited client whose cluster state is set but whose
actives are null receives the deleted-state view; the code emits NOTHING
(and leaves `urls` untouched), while the claim demands exactly one
`topology` emission with payload `[]`. -/
theorem C3_counterexample :
    (handleClusterState (some ⟨none, none, none⟩)
        ⟨true, some ⟨some ⟨jstr "tcp://1.1.1.1:5432"⟩, none, none⟩, none,
          [jstr "tcp://1.1.1.1:5432"]⟩).2 = [] ∧
    (handleClusterState (some ⟨none, none, none⟩)
        ⟨true, some ⟨some ⟨jstr "tcp://1.1.1.1:5432"⟩, none, none⟩, none,
          [jstr "tcp://1.1.1.1:5432"]⟩).2 ≠ [ClientEvent.topology []] := by
  decide

/-- C3 (amended): an inited client receiving a null-data view sets
`clusterState` to null; when actives exist it recomputes the actives-derived
list and emits exactly one `topology` event iff that list differs
element-wise from the stored urls (none otherwise); when no actives exist it
neither recomputes nor emits, and `urls` is unchanged. -/
theorem C3_state_deleted_amended (s : ClientState) (v : Option NodeView)
    (hi : s.inited = true) (hd : v.bind NodeView.data = none) :
    (handleClusterState v s).1.clusterState = none ∧
    (s.actives = none →
      handleClusterState v s = ({ s with clusterState := none }, [])) ∧
    (∀ acts, s.actives = some acts →
      (childrenToUrls (some acts) = s.urls →
        handleClusterState v s = ({ s with clusterState := none }, [])) ∧
      (childrenToUrls (some acts) ≠ s.urls →
        handleClusterState v s =
          ({ s with clusterState := none, urls := childrenToUrls (some acts) },
           [ClientEvent.topology (childrenToUrls (some acts))]))) := by
  have hni : (!s.inited) = false := by rw [hi]; rfl
  refine ⟨?_, ?_, ?_⟩
  · cases ha : s.actives with
    | none => simp [handleClusterState, hd, hni, ha]
    | some acts =>
      simp only [handleClusterState, hd, hni, Bool.false_eq_true, if_false, ha]
      rw [handleTopologyChange_clusterState]
  · intro ha
    simp [handleClusterState, hd, hni, ha]
  · intro acts ha
    constructor
    · intro heq
      simp only [handleClusterState, hd, hni, Bool.false_eq_true, if_false, ha]
      exact handleTopologyChange_of_eq _ _ heq
    · intro hne
      simp only [handleClusterState, hd, hni, Bool.false_eq_true, if_false, ha]
      rw [handleTopologyChange_of_ne (some (childrenToUrls (some acts)))
        { inited := s.inited, clusterState := none, actives := some acts,
          urls := s.urls } hne]
      simp [hi]

/-- C3 witness: an inited client with actives set observes the state-node
deletion; its cluster state is cleared. -/
theorem C3_witness :
    ((⟨true, some ⟨none, none, none⟩, some [jstr "a-1"], [jstr "old"]⟩ :
        ClientState).inited = true ∧
      (some (⟨none, none, none⟩ : NodeView)).bind NodeView.data = none) ∧
    (handleClusterState (some ⟨none, none, none⟩)
        ⟨true, some ⟨none, none, none⟩, some [jstr "a-1"],
          [jstr "old"]⟩).1.clusterState = none :=
  ⟨⟨rfl, rfl⟩,
    (C3_state_deleted_amended
      ⟨true, some ⟨none, none, none⟩, some [jstr "a-1"], [jstr "old"]⟩
      (some ⟨none, none, none⟩) rfl rfl).1⟩

/-- C6: while a cluster state is present, an actives delivery updates only
the stored `actives` field, leaves `urls` unchanged and emits nothing; a
null children view nulls `actives` with no recomputation at all. -/
theorem C6_actives_frame (s : ClientState) (v : Option NodeView) :
    (∀ ch, v.bind NodeView.children = some ch → s.clusterState ≠ none →
      handleActive v s = ({ s with actives := some ch }, [])) ∧
    (v.bind NodeView.children = none →
      handleActive v s = ({ s with actives := none }, [])) := by
  constructor
  · intro ch hch hcs
    cases hc : s.clusterState with
    | none => exact absurd hc hcs
    | some cs => simp only [handleActive, hch, hc]
  · intro hch
    simp only [handleActive, hch]

/-- C6 witness: with a cluster state present, an actives change only
restocks `actives`. -/
theorem C6_witness :
    ((some (⟨none, none, some [jstr "x-1"]⟩ : NodeView)).bind
        NodeView.children = some [jstr "x-1"] ∧
      (⟨true, some ⟨none, none, none⟩, none, [jstr "u"]⟩ :
        ClientState).clusterState ≠ none) ∧
    handleActive (some ⟨none, none, some [jstr "x-1"]⟩)
        ⟨true, some ⟨none, none, none⟩, none, [jstr "u"]⟩ =
      (⟨true, some ⟨none, none, none⟩, some [jstr "x-1"], [jstr "u"]⟩, []) :=
  ⟨⟨rfl, by decide⟩,
    (C6_actives_frame ⟨true, some ⟨none, none, none⟩, none, [jstr "u"]⟩
      (some ⟨none, none, some [jstr "x-1"]⟩)).1 [jstr "x-1"] rfl (by decide)⟩

/-- C7: `_handleClusterState` emits `error` iff node data is present and
fails to JSON-parse; on failure the whole client state is untouched and the
only event is the single `error`; on success the parsed document is stored
and the reducer result is handed to the debounced emitter. -/
theorem C7_cluster_state_parse (s : ClientState) (v : Option NodeView) :
    (ClientEvent.error ∈ (handleClusterState v s).2 ↔
      ∃ d, v.bind NodeView.data = some d ∧ parseClusterState d = none) ∧
    (∀ d, v.bind NodeView.data = some d → parseClusterState d = none →
      handleClusterState v s = (s, [ClientEvent.error])) ∧
    (∀ d cs, v.bind NodeView.data = some d → parseClusterState d = some cs →
      handleClusterState v s =
        handleTopologyChange (some (clusterStateToUrls cs))
          { s with clusterState := some cs }) := by
  refine ⟨⟨?_, ?_⟩, ?_, ?_⟩
  · intro hmem
    cases hd : v.bind NodeView.data with
    | none => exact absurd hmem (handleClusterState_data_none_error_free v s hd)
    | some d =>
      cases hp : parseClusterState d with
      | none => exact ⟨d, rfl, hp⟩
      | some cs =>
        rw [handleClusterState_eq_valid v s d cs hd hp] at hmem
        exact absurd hmem (handleTopologyChange_no_error _ _)
  · rintro ⟨d, hd, hp⟩
    rw [handleClusterState_eq_invalid v s d hd hp]
    simp
  · exact fun d hd hp => handleClusterState_eq_invalid v s d hd hp
  · exact fun d cs hd hp => handleClusterState_eq_valid v s d cs hd hp

/-- C7 witness: unparseable node data produces exactly the `error` event and
leaves the state unchanged. -/
theorem C7_witness :
    ((some (⟨some NodeData.invalid, none, none⟩ : NodeView)).bind
        NodeView.data = some NodeData.invalid ∧
      parseClusterState NodeData.invalid = none) ∧
    handleClusterState (some ⟨some NodeData.invalid, none, none⟩)
        initialClient = (initialClient, [ClientEvent.error]) :=
  ⟨⟨rfl, rfl⟩,
    (C7_cluster_state_parse initialClient
      (some ⟨some NodeData.invalid, none, none⟩)).2.1 NodeData.invalid rfl rfl⟩

/-- With the client not inited, a run of `_handleTopologyChange` calls
emits nothing. -/
theorem runTopoChanges_not_inited (ins : List (Option (List JStr))) :
    ∀ s : ClientState, s.inited = false → (runTopoChanges s ins).2 = [] := by
  induction ins with
  | nil => intro s _; rfl
  | cons u us ih =>
    intro s h
    simp only [runTopoChanges]
    rw [handleTopologyChange_not_inited u s h, List.nil_append]
    exact ih _ (by rw [handleTopologyChange_inited]; exact h)

/-- A `topology` event at the head of an event list contributes its payload
at the head. -/
theorem topoPayloads_cons_topology (u : List JStr) (evs : List ClientEvent) :
    topoPayloads (ClientEvent.topology u :: evs) = u :: topoPayloads evs := rfl

/-- Invariant of an inited run: the emitted payloads form a chain of
consecutive distinct lists, the first one differs from the starting urls,
and the final stored urls equal the last payload (or the starting urls when
nothing was emitted). -/
theorem runTopoChanges_chain (ins : List (Option (List JStr))) :
    ∀ s : ClientState, s.inited = true →
      List.Chain' (fun a b => a ≠ b)
        (topoPayloads (runTopoChanges s ins).2) ∧
      (∀ p, (topoPayloads (runTopoChanges s ins).2).head? = some p →
        p ≠ s.urls) ∧
      (runTopoChanges s ins).1.urls =
        ((topoPayloads (runTopoChanges s ins).2).getLast?).getD s.urls := by
  induction ins with
  | nil =>
    intro s _
    refine ⟨List.chain'_nil, ?_, ?_⟩ <;> simp [runTopoChanges, topoPayloads]
  | cons u us ih =>
    intro s h
    by_cases he : u.getD [] = s.urls
    · have hstep := handleTopologyChange_of_eq u s he
      simp only [runTopoChanges, hstep, List.nil_append]
      exact ih s h
    · have hstep := handleTopologyChange_of_ne u s he
      have h2 : (handleTopologyChange u s).2 =
          [ClientEvent.topology (u.getD [])] := by
        rw [hstep]; simp [h]
      have h1urls : (handleTopologyChange u s).1.urls = u.getD [] := by
        rw [hstep]
      obtain ⟨ic, ihead, iurls⟩ := ih (handleTopologyChange u s).1
        (by rw [handleTopologyChange_inited]; exact h)
      rw [h1urls] at ihead iurls
      simp only [runTopoChanges, h2, List.cons_append, List.nil_append,
        topoPayloads_cons_topology]
      refine ⟨?_, ?_, ?_⟩
      · rw [List.chain'_cons']
        refine ⟨fun b hb => ?_, ic⟩
        exact (ihead b (by simpa using hb)).symm
      · intro p hp
        simp only [List.head?_cons, Option.some.injEq] at hp
        rw [hp] at he
        exact he
      · cases hP : topoPayloads
            (runTopoChanges (handleTopologyChange u s).1 us).2 with
        | nil =>
          rw [hP] at iurls
          simpa using iurls
        | cons x xs =>
          rw [List.getLast?_cons_cons]
          rw [hP] at iurls
          cases hxl : (x :: xs).getLast? with
          | none => simp at hxl
          | some l =>
            rw [hxl] at iurls
            simpa [hxl] using iurls

/-- C4: over any sequence of `_handleTopologyChange` calls consecutive
`topology` emissions are never element-wise equal; a single call with a list
equal to the stored one is a no-op, and with a different list it replaces
the stored one and emits exactly when inited. -/
theorem C4_debounced_emissions (s : ClientState)
    (ins : List (Option (List JStr))) (u : Option (List JStr)) :
    List.Chain' (fun a b => a ≠ b)
      (topoPayloads (runTopoChanges s ins).2) ∧
    (u.getD [] = s.urls → handleTopologyChange u s = (s, [])) ∧
    (u.getD [] ≠ s.urls →
      handleTopologyChange u s =
        ({ s with urls := u.getD [] },
         if s.inited then [ClientEvent.topology (u.getD [])] else [])) := by
  refine ⟨?_, handleTopologyChange_of_eq u s, handleTopologyChange_of_ne u s⟩
  cases hi : s.inited with
  | false =>
    rw [runTopoChanges_not_inited ins s hi]
    exact List.chain'_nil
  | true => exact (runTopoChanges_chain ins s hi).1

/-- C4 witness: a first, differing list is stored; nothing is emitted before
init. -/
theorem C4_witness :
    ((some [jstr "x"] : Option (List JStr)).getD [] ≠ initialClient.urls) ∧
    handleTopologyChange (some [jstr "x"]) initialClient =
      ({ initialClient with urls := [jstr "x"] },
       if initialClient.inited then [ClientEvent.topology [jstr "x"]]
       else []) :=
  ⟨by decide,
    (C4_debounced_emissions initialClient [] (some [jstr "x"])).2.2
      (by decide)⟩

/-- `takeWhile` passes over a wholly satisfying prefix. -/
theorem takeWhile_append_all {α : Type} (p : α → Bool) (l₁ l₂ : List α)
    (h : ∀ x ∈ l₁, p x = true) :
    (l₁ ++ l₂).takeWhile p = l₁ ++ l₂.takeWhile p := by
  induction l₁ with
  | nil => simp
  | cons a l ih =>
    have ha := h a (by simp)
    simp only [List.cons_append, List.takeWhile_cons, ha, if_true,
      List.cons.injEq, true_and]
    exact ih (fun x hx => h x (by simp [hx]))

/-- Ready-emission count of a lifetime run: one `ready` is emitted exactly
when the latch is still open and a successful watch setup occurs; never
more. -/
theorem runLife_ready_count (tr : List LEvent) :
    ∀ s : LifeState, (runLife s tr).2.count ClientEvent.ready =
      (if s.readyRun then 0 else if LEvent.connectedOk ∈ tr then 1 else 0) := by
  induction tr with
  | nil => intro s; simp [runLife]
  | cons e es ih =>
    intro s
    simp only [runLife, List.count_append]
    cases e with
    | connectedOk =>
      cases hr : s.readyRun with
      | true =>
        simp only [lifeStep, hr, if_true]
        rw [ih s, hr]
        simp
      | false =>
        simp only [lifeStep, hr, Bool.false_eq_true, if_false]
        rw [ih]
        simp [List.count_cons]
    | connectedErr =>
      simp only [lifeStep, List.count_nil, List.nil_append, Nat.zero_add]
      rw [ih s]
      simp [List.mem_cons]
    | expired =>
      simp only [lifeStep, List.count_nil, List.nil_append, Nat.zero_add]
      rw [ih s]
      simp [List.mem_cons]
    | zkError =>
      simp only [lifeStep, List.count_nil, List.nil_append, Nat.zero_add]
      rw [ih s]
      simp [List.mem_cons]
    | clusterView v =>
      simp only [lifeStep]
      have h0 : ((handleClusterState v s.client).2).count ClientEvent.ready
          = 0 :=
        List.count_eq_zero.mpr (handleClusterState_no_ready v s.client)
      rw [h0, ih]
      simp [List.mem_cons]
    | activeView v =>
      simp only [lifeStep]
      have h0 : ((handleActive v s.client).2).count ClientEvent.ready = 0 :=
        List.count_eq_zero.mpr (handleActive_no_ready v s.client)
      rw [h0, ih]
      simp [List.mem_cons]

/-- Before the latch fires (and while the client is not inited) no
`topology` event precedes the first `ready` in the output of a run. -/
theorem runLife_no_topo_before_ready (tr : List LEvent) :
    ∀ s : LifeState, s.readyRun = false → s.client.inited = false →
      ((runLife s tr).2.takeWhile (fun e => e != ClientEvent.ready)).all
        (fun e => !(isTopology e)) = true := by
  induction tr with
  | nil => intro s _ _; simp [runLife]
  | cons e es ih =>
    intro s hr hi
    simp only [runLife]
    cases e with
    | connectedOk =>
      simp only [lifeStep, hr, Bool.false_eq_true, if_false,
        List.cons_append, List.takeWhile_cons]
      simp
    | connectedErr =>
      simp only [lifeStep, List.nil_append]
      exact ih s hr hi
    | expired =>
      simp only [lifeStep, List.nil_append]
      exact ih s hr hi
    | zkError =>
      simp only [lifeStep, List.nil_append]
      exact ih s hr hi
    | clusterView v =>
      simp only [lifeStep]
      have hnr : ∀ x ∈ (handleClusterState v s.client).2,
          (x != ClientEvent.ready) = true := by
        intro x hx
        simp only [bne_iff_ne, ne_eq]
        exact fun hxe => handleClusterState_no_ready v s.client (hxe ▸ hx)
      rw [takeWhile_append_all _ _ _ hnr, List.all_append]
      have h1 : ((handleClusterState v s.client).2).all
          (fun e => !(isTopology e)) = true := by
        rw [List.all_eq_true]
        intro x hx
        have := handleClusterState_no_topo_of_not_inited v s.client hi x hx
        simp [this]
      rw [h1, Bool.true_and]
      exact ih _ hr (by rw [handleClusterState_inited]; exact hi)
    | activeView v =>
      simp only [lifeStep]
      rw [handleActive_of_not_inited v s.client hi, List.nil_append]
      exact ih _ hr (by rw [handleActive_inited]; exact hi)

/-- C5: across a whole client lifetime (session expiries and resets
included) at most one `ready` is emitted; exactly one as soon as some watch
setup succeeds; and no `topology` emission precedes the first `ready` (in
particular none is emitted while `inited` is false). -/
theorem C5_ready_once_before_topology (tr : List LEvent) :
    (runLife initialLife tr).2.count ClientEvent.ready ≤ 1 ∧
    (LEvent.connectedOk ∈ tr →
      (runLife initialLife tr).2.count ClientEvent.ready = 1) ∧
    ((runLife initialLife tr).2.takeWhile
        (fun e => e != ClientEvent.ready)).all
      (fun e => !(isTopology e)) = true := by
  refine ⟨?_, ?_, ?_⟩
  · rw [runLife_ready_count]
    by_cases hm : LEvent.connectedOk ∈ tr <;> simp [initialLife, hm]
  · intro hm
    rw [runLife_ready_count]
    simp [initialLife, hm]
  · exact runLife_no_topo_before_ready tr initialLife rfl rfl

/-- C5 witness: a trace with one successful watch setup emits `ready`
exactly once. -/
theorem C5_witness :
    LEvent.connectedOk ∈ [LEvent.connectedOk] ∧
    (runLife initialLife [LEvent.connectedOk]).2.count ClientEvent.ready
      = 1 :=
  ⟨by decide,
    (C5_ready_once_before_topology [LEvent.connectedOk]).2.1 (by decide)⟩

/-- An in-range index selects a member of the alphabet. -/
theorem base64Char_mem (n : Nat) (h : n < base64Alphabet.length) :
    base64Char n ∈ base64Alphabet := by
  unfold base64Char
  rw [List.getD_eq_getElem base64Alphabet 'A' h]
  exact List.getElem_mem h

/-- Base64 output length: four characters per three input bytes. -/
theorem base64Encode_length : ∀ bs : List Nat,
    (base64Encode bs).length = bs.length / 3 * 4
  | [] => rfl
  | [_] => by simp [base64Encode]
  | [_, _] => by simp [base64Encode]
  | b0 :: b1 :: b2 :: rest => by
    simp only [base64Encode, List.length_cons]
    rw [base64Encode_length rest]
    omega

/-- Every character of a base64 encoding belongs to the alphabet. -/
theorem base64Encode_mem : ∀ (bs : List Nat), ∀ c ∈ base64Encode bs,
    c ∈ base64Alphabet
  | [], c, hc => by simp [base64Encode] at hc
  | [_], c, hc => by simp [base64Encode] at hc
  | [_, _], c, hc => by simp [base64Encode] at hc
  | b0 :: b1 :: b2 :: rest, c, hc => by
    have hlen : base64Alphabet.length = 64 := rfl
    simp only [base64Encode, List.mem_cons] at hc
    rcases hc with h | h | h | h | h
    · exact h ▸ base64Char_mem _ (by rw [hlen]; exact Nat.mod_lt _ (by omega))
    · exact h ▸ base64Char_mem _ (by rw [hlen]; exact Nat.mod_lt _ (by omega))
    · exact h ▸ base64Char_mem _ (by rw [hlen]; exact Nat.mod_lt _ (by omega))
    · exact h ▸ base64Char_mem _ (by rw [hlen]; exact Nat.mod_lt _ (by omega))
    · exact base64Encode_mem rest c h

/-- C8: a candidate equal to the current primary on name/address/port is
ignored; otherwise the candidate gets a fresh key of 12 unpadded base64
characters from the 9 random bytes, `added` is emitted first and, when an
old primary existed, `removed(old.key)` strictly after; the resolver holds
at most one record. -/
theorem C8_diff_primary (s : ResolverState) (np : PrimaryCandidate)
    (rb : List Nat) (hlen : rb.length = 9) :
    (∀ o, s.mpr_primary = some o → samePrimary o np = true →
      diffPrimaryAndEmit rb np s = (s, [])) ∧
    ((match s.mpr_primary with
      | some o => samePrimary o np
      | none => false) = false →
      (base64Encode rb).length = 12 ∧
      (∀ c ∈ base64Encode rb, c ∈ base64Alphabet) ∧
      '=' ∉ base64Encode rb ∧
      diffPrimaryAndEmit rb np s =
        (⟨s.mpr_primary,
          some ⟨np.name, np.address, np.port, base64Encode rb⟩⟩,
         [REvent.added (base64Encode rb)
            ⟨np.name, np.address, np.port, base64Encode rb⟩] ++
          (match s.mpr_primary with
           | some o => [REvent.removed o.key]
           | none => []))) ∧
    resolverCount (diffPrimaryAndEmit rb np s).1 ≤ 1 := by
  refine ⟨?_, ?_, ?_⟩
  · intro o ho hs
    simp only [diffPrimaryAndEmit, ho, hs, if_true]
  · intro hguard
    refine ⟨?_, base64Encode_mem rb, ?_, ?_⟩
    · rw [base64Encode_length, hlen]
    · intro hmem
      exact absurd (base64Encode_mem rb '=' hmem) (by decide)
    · simp only [diffPrimaryAndEmit, hguard, Bool.false_eq_true, if_false]
  · unfold resolverCount
    split <;> omega

/-- C8 witness: a differing candidate replaces the old primary, gets a
12-character key, and `added` precedes `removed(old.key)`. -/
theorem C8_witness :
    ([0, 1, 2, 3, 4, 5, 6, 7, 8] : List Nat).length = 9 ∧
    ((match (⟨none, some ⟨jstr "primary", jstr "1.1.1.1", 5432,
          jstr "k1"⟩⟩ : ResolverState).mpr_primary with
      | some o => samePrimary o ⟨jstr "primary", jstr "9.9.9.9", 5432⟩
      | none => false) = false) ∧
    (base64Encode [0, 1, 2, 3, 4, 5, 6, 7, 8]).length = 12 :=
  ⟨rfl, by decide,
    ((C8_diff_primary
      ⟨none, some ⟨jstr "primary", jstr "1.1.1.1", 5432, jstr "k1"⟩⟩
      ⟨jstr "primary", jstr "9.9.9.9", 5432⟩
      [0, 1, 2, 3, 4, 5, 6, 7, 8] rfl).2.1 (by decide)).1⟩

/-- C10: entering `state_failed` clears the primary while emitting nothing
(`count()` drops to 0 and `list()` to the empty mapping at once), and a
`removed(k)` event only ever arises inside one `diffPrimaryAndEmit`
invocation, immediately after the `added` of the record that replaced the
record whose key is `k`. -/
theorem C10_failed_clears_silently (s : ResolverState) :
    state_failed_entry s = (⟨s.mpr_primary, none⟩, []) ∧
    resolverCount (state_failed_entry s).1 = 0 ∧
    resolverList (state_failed_entry s).1 = [] ∧
    (∀ rb np k, REvent.removed k ∈ (diffPrimaryAndEmit rb np s).2 →
      ∃ old, s.mpr_primary = some old ∧ old.key = k ∧
        (diffPrimaryAndEmit rb np s).2 =
          [REvent.added (base64Encode rb)
             ⟨np.name, np.address, np.port, base64Encode rb⟩,
           REvent.removed k]) := by
  refine ⟨rfl, rfl, rfl, ?_⟩
  intro rb np k hmem
  cases ho : s.mpr_primary with
  | none =>
    have hev : (diffPrimaryAndEmit rb np s).2 =
        [REvent.added (base64Encode rb)
          ⟨np.name, np.address, np.port, base64Encode rb⟩] := by
      simp only [diffPrimaryAndEmit, ho, Bool.false_eq_true, if_false,
        List.append_nil]
    rw [hev] at hmem
    simp at hmem
  | some o =>
    by_cases hs : samePrimary o np = true
    · have hev : diffPrimaryAndEmit rb np s = (s, []) := by
        simp only [diffPrimaryAndEmit, ho, hs, if_true]
      rw [hev] at hmem
      simp at hmem
    · have hs' : samePrimary o np = false := by
        rwa [Bool.not_eq_true] at hs
      have hev : (diffPrimaryAndEmit rb np s).2 =
          [REvent.added (base64Encode rb)
             ⟨np.name, np.address, np.port, base64Encode rb⟩,
           REvent.removed o.key] := by
        simp only [diffPrimaryAndEmit, ho, hs', Bool.false_eq_true, if_false,
          List.singleton_append]
      rw [hev] at hmem
      simp only [List.mem_cons, List.mem_singleton] at hmem
      rcases hmem with h | h
      · exact absurd h (by simp)
      · have hk : k = o.key := by
          simpa using h
        exact ⟨o, rfl, hk.symm, by rw [hev, hk]⟩

/-- C10 witness: a replacement transition emits `removed(k1)` right after
`added`, with `k1` the replaced record's key. -/
theorem C10_witness :
    REvent.removed (jstr "k1") ∈
      (diffPrimaryAndEmit [0, 1, 2, 3, 4, 5, 6, 7, 8]
        ⟨jstr "primary", jstr "9.9.9.9", 5432⟩
        ⟨none, some ⟨jstr "primary", jstr "1.1.1.1", 5432,
          jstr "k1"⟩⟩).2 ∧
    (∃ old, (⟨none, some ⟨jstr "primary", jstr "1.1.1.1", 5432,
        jstr "k1"⟩⟩ : ResolverState).mpr_primary = some old ∧
      old.key = jstr "k1" ∧
      (diffPrimaryAndEmit [0, 1, 2, 3, 4, 5, 6, 7, 8]
        ⟨jstr "primary", jstr "9.9.9.9", 5432⟩
        ⟨none, some ⟨jstr "primary", jstr "1.1.1.1", 5432,
          jstr "k1"⟩⟩).2 =
        [REvent.added (base64Encode [0, 1, 2, 3, 4, 5, 6, 7, 8])
           ⟨jstr "primary", jstr "9.9.9.9", 5432,
             base64Encode [0, 1, 2, 3, 4, 5, 6, 7, 8]⟩,
         REvent.removed (jstr "k1")]) :=
  ⟨by decide,
    (C10_failed_clears_silently
      ⟨none, some ⟨jstr "primary", jstr "1.1.1.1", 5432, jstr "k1"⟩⟩).2.2.2
      [0, 1, 2, 3, 4, 5, 6, 7, 8]
      ⟨jstr "primary", jstr "9.9.9.9", 5432⟩ (jstr "k1") (by decide)⟩

/-- C9: evaluation of the `_watchNode` data chain.  An undisturbed first
`getData(regWatch=true)` installs the data watch on completion, but when the
initial read fails with a transient error, the retry scheduled as
`setTimeout(getData, 5000)` re-enters `getData` with no argument, so the
resolved retried read does NOT install the data watch — contrary to the
claim (and to the watcher's documented duty to keep re-registering
watches). -/
theorem C9_retry_drops_regWatch :
    getDataInstallsWatch true [GDResp.noNode] = some true ∧
    getDataInstallsWatch true [GDResp.err, GDResp.noNode] = some false ∧
    getDataInstallsWatch true [GDResp.err, GDResp.ok 0] = some false := by
  decide
